import Mathlib

/-!
Shallow embedding of the mixcode/golib-bufpipe repository: a lock-free FIFO
queue (Michael–Scott), a one-shot cancellable notification channel
(`NotifyCh`), a closable `Pipe` composing the two, and a `BytePipe` adapter.

The Go code is concurrent; we embed its sequential denotation: each Go
method becomes a pure Lean function from the receiver state to the result
and the updated state.  Under sequential execution every compare-and-swap
in the source succeeds exactly when its expected-value test holds, so the
CAS-retry loops collapse to a single conditional step.  Go `int`/`int32`/
`int64` fields are modelled as `Int` (no overflow is reachable in any claim
considered here), the Go zero value of a type parameter `T` is `default`
from `Inhabited T`, and Go `error` results are `Option Err` (`none` = nil).
-/

/-- The error values used by the library: `io.EOF`, `io.ErrClosedPipe`,
the package-level `ErrNoData`, and the context errors `context.Canceled`
and `context.DeadlineExceeded`. They are pairwise distinct values in Go. -/
inductive Err where
  | EOF
  | ErrClosedPipe
  | ErrNoData
  | Canceled
  | DeadlineExceeded
deriving DecidableEq, Repr

/-- Sequential denotation of the lock-free Michael–Scott queue of
`src/unnamed/part_002`.  `items` is the list of values held in the nodes
after the sentinel head, in FIFO order; `size` is the auxiliary atomic
counter `q.size`. -/
structure Queue (T : Type) where
  items : List T
  size : Int
deriving Repr

/-- `NewQueue` of part_002: a single sentinel node, head = tail, size 0. -/
def NewQueue {T : Type} : Queue T := ⟨[], 0⟩

/-- `Queue.Enqueue` of part_002 lines 27–46, sequential denotation: with no
contention the first CAS on `tail.next` succeeds, the new node is linked at
the tail, `tail` is advanced, and the incremented size is returned. -/
def Queue.Enqueue {T : Type} (q : Queue T) (v : T) : Int × Queue T :=
  (q.size + 1, ⟨q.items ++ [v], q.size + 1⟩)

/-- `Queue.Dequeue` of part_002 lines 49–76, sequential denotation: if
head = tail (no node after the sentinel) report not-found and leave the
queue untouched; otherwise advance `head`, read the value from the new
head node, and decrement `size`.  `none` models `ok = false`. -/
def Queue.Dequeue {T : Type} (q : Queue T) : Option T × Queue T :=
  match q.items with
  | [] => (none, q)
  | v :: rest => (some v, ⟨rest, q.size - 1⟩)

/-- `Queue.Len` of part_002 lines 79–81. -/
def Queue.Len {T : Type} (q : Queue T) : Int := q.size

/-- Enqueue a list of values in order (iterated `Queue.Enqueue`). -/
def Queue.enqueueList {T : Type} (q : Queue T) : List T → Queue T
  | [] => q
  | v :: vs => ((q.Enqueue v).2).enqueueList vs

/-- Call `Queue.Dequeue` `n` times, collecting the `(value, ok)` results
(as `Option T`) and the final queue state. -/
def Queue.dequeueList {T : Type} (q : Queue T) : Nat → List (Option T) × Queue T
  | 0 => ([], q)
  | n + 1 =>
    let (r, q1) := q.Dequeue
    let (rs, q2) := q1.dequeueList n
    (r :: rs, q2)

/-- Sequential denotation of `NotifyCh` (`src/notifych.go` and
`src/unnamed/part_000`; the two files declare the identical structure).
The Go `chan any` field `ch` is modelled by an identity `chId` (pointer
identity of the channel, used by `UnfetchChannel`'s handle comparison) and
a flag `chClosed` (whether `close(ch)` has happened).  `flagReceive` and
`flagSend` are the two int32 lease flags. -/
structure NotifyCh (T : Type) where
  Value : T
  Cancelled : Bool
  chId : Nat
  chClosed : Bool
  flagReceive : Int
  flagSend : Int
deriving Repr

/-- `NewNotifyCh`: a fresh channel with a fresh id; `Value` is the Go zero
value, both flags 0, channel open. -/
def NewNotifyCh {T : Type} (zero : T) (id : Nat) : NotifyCh T :=
  ⟨zero, false, id, false, 0, 0⟩

/-- `NotifyCh.FetchChannel`: CAS the receive lease 0 → 1; on success return
the channel (its handle), otherwise nil (`none`). -/
def NotifyCh.FetchChannel {T : Type} (c : NotifyCh T) : Option Nat × NotifyCh T :=
  if c.flagReceive = 0 then (some c.chId, { c with flagReceive := 1 })
  else (none, c)

/-- `NotifyCh.UnfetchChannel` (notifych.go lines 42–48 = part_000 lines
40–46): fail if the handle is not this channel; otherwise CAS the receive
lease 1 → 0.  Note the source checks only the handle and the receive
lease — it never inspects whether the channel has been closed. -/
def NotifyCh.UnfetchChannel {T : Type} (c : NotifyCh T) (h : Nat) : Bool × NotifyCh T :=
  if h ≠ c.chId then (false, c)
  else if c.flagReceive = 1 then (true, { c with flagReceive := 0 })
  else (false, c)

/-- `NotifyCh.fetchSendChannel`: CAS the send lease 0 → 1; on success
return the channel, otherwise nil. -/
def NotifyCh.fetchSendChannel {T : Type} (c : NotifyCh T) : Option Nat × NotifyCh T :=
  if c.flagSend = 0 then (some c.chId, { c with flagSend := 1 })
  else (none, c)

/-- `NotifyCh.Notify`: acquire the send lease; on success store the value
and close the channel, returning true; otherwise return false. -/
def NotifyCh.Notify {T : Type} (c : NotifyCh T) (value : T) : Bool × NotifyCh T :=
  match c.fetchSendChannel with
  | (none, c1) => (false, c1)
  | (some _, c1) => (true, { c1 with Value := value, chClosed := true })

/-- `NotifyCh.Cancel`: acquire the send lease; on success set `Cancelled`
and close the channel, returning true; otherwise return false. -/
def NotifyCh.Cancel {T : Type} (c : NotifyCh T) : Bool × NotifyCh T :=
  match c.fetchSendChannel with
  | (none, c1) => (false, c1)
  | (some _, c1) => (true, { c1 with Cancelled := true, chClosed := true })

/-- `NotifyCh.CancelWithValue` (notifych.go only): acquire the send lease;
on success set the value and `Cancelled` and close the channel. -/
def NotifyCh.CancelWithValue {T : Type} (c : NotifyCh T) (value : T) : Bool × NotifyCh T :=
  match c.fetchSendChannel with
  | (none, c1) => (false, c1)
  | (some _, c1) => (true, { c1 with Value := value, Cancelled := true, chClosed := true })

/-- Go's `err = ctx.Err(); if err == nil { err = context.Canceled }`. -/
def ctxError (ctxErr : Option Err) : Err :=
  match ctxErr with
  | some e => e
  | none => Err.Canceled

/-- `NotifyCh.Wait` of `src/notifych.go` (package bufpipe), for executions
with no concurrent sender: `ctxDone`/`ctxErr` model the state of the
context when `Wait` runs.  If the receive lease is unavailable it returns
`(Value, io.EOF)` at once.  Otherwise the `select` fires on `<-ch` when the
channel is already closed (returning `Value` with nil error, or with
`io.ErrClosedPipe` when `Cancelled`), fires on `<-ctx.Done()` when the
context has expired (releasing the receive lease and returning the context
error), and otherwise blocks, modelled as `none`. -/
def NotifyCh.Wait {T : Type} [Inhabited T] (c : NotifyCh T)
    (ctxDone : Bool) (ctxErr : Option Err) : Option (T × Option Err × NotifyCh T) :=
  match c.FetchChannel with
  | (none, c1) => some (c1.Value, some Err.EOF, c1)
  | (some ch, c1) =>
    if c1.chClosed then
      some (c1.Value, if c1.Cancelled then some Err.ErrClosedPipe else none, c1)
    else if ctxDone then
      some (default, some (ctxError ctxErr), (c1.UnfetchChannel ch).2)
    else none

/-- `NotifyCh.Wait` of `src/unnamed/part_000` (package pipe), same
modelling conventions.  This variant returns `(Value, io.ErrClosedPipe)`
when the receive lease is unavailable, and on `<-ch` it returns
`(Value, nil)` unconditionally — it does not consult `Cancelled`. -/
def NotifyCh.WaitPipePkg {T : Type} [Inhabited T] (c : NotifyCh T)
    (ctxDone : Bool) (ctxErr : Option Err) : Option (T × Option Err × NotifyCh T) :=
  match c.FetchChannel with
  | (none, c1) => some (c1.Value, some Err.ErrClosedPipe, c1)
  | (some ch, c1) =>
    if c1.chClosed then
      some (c1.Value, none, c1)
    else if ctxDone then
      some (default, some (ctxError ctxErr), (c1.UnfetchChannel ch).2)
    else none

/-- Sequential denotation of `Pipe` (`src/pipe.go`).  The Go buffered
channel `ch chan *NotifyCh[any]` (the registry of pending waiters, FIFO,
capacity 16) is modelled as the list of the registered channels' states,
front = next to be popped; the capacity bound is enforced at the only
place the source can hit it, the registration send `q.ch <- ch` inside
`Read` (receiving with a `default` case, as `Append` and `Close` do,
never blocks); the broadcast channel `writeCloseCh` is modelled by the
flag `writeChClosed` (whether `close(writeCloseCh)` has happened). -/
structure Pipe (T : Type) where
  queue : Queue T
  readClosed : Bool
  writeClosed : Bool
  writeChClosed : Bool
  ch : List (NotifyCh Unit)
  blockingReadCount : Int
deriving Repr

/-- The capacity of the waiter registry: `NewPipe` allocates
`make(chan *NotifyCh[any], 16)` (pipe.go line 32). -/
def pipeChCapacity : Nat := 16

/-- `NewPipe` (pipe.go lines 28–34). -/
def NewPipe {T : Type} : Pipe T := ⟨NewQueue, false, false, false, [], 0⟩

/-- `Pipe.Len` (pipe.go lines 37–39). -/
def Pipe.Len {T : Type} (p : Pipe T) : Int := p.queue.Len

/-- The waiter-waking loop of `Pipe.Append` (pipe.go lines 51–60): pop one
`NotifyCh` at a time from the registry and call `Notify(nil)` on it; stop
as soon as the registry is empty or one `Notify` returns true.  Returns
the registry that remains and the number of successful notifications. -/
def wakeLoop : List (NotifyCh Unit) → List (NotifyCh Unit) × Nat
  | [] => ([], 0)
  | nc :: rest =>
    if (nc.Notify ()).1 then (rest, 1) else wakeLoop rest

/-- `Pipe.Append` (pipe.go lines 44–61): fail with `io.ErrClosedPipe` if
write-closed; otherwise enqueue, run the waking loop over the registry,
and return the new entry count. -/
def Pipe.Append {T : Type} (p : Pipe T) (v : T) : Int × Option Err × Pipe T :=
  if p.writeClosed then (0, some Err.ErrClosedPipe, p)
  else
    let (n, q1) := p.queue.Enqueue v
    (n, none, { p with queue := q1, ch := (wakeLoop p.ch).1 })

/-- `Pipe.Fetch` (pipe.go lines 66–82): `io.EOF` once read-closed;
otherwise dequeue if possible; on an empty queue, flip to read-closed and
report `io.EOF` when write-closed, else report `ErrNoData`. -/
def Pipe.Fetch {T : Type} [Inhabited T] (p : Pipe T) : T × Option Err × Pipe T :=
  if p.readClosed then (default, some Err.EOF, p)
  else
    match p.queue.Dequeue with
    | (some v, q1) => (v, none, { p with queue := q1 })
    | (none, q1) =>
      if p.writeClosed then (default, some Err.EOF, { p with queue := q1, readClosed := true })
      else (default, some Err.ErrNoData, { p with queue := q1 })

/-- Call `Pipe.Fetch` `n` times, collecting the `(value, error)` results
and the final pipe state. -/
def Pipe.fetchList {T : Type} [Inhabited T] (p : Pipe T) : Nat → List (T × Option Err) × Pipe T
  | 0 => ([], p)
  | n + 1 =>
    let (v, e, p1) := p.Fetch
    let (rs, p2) := p1.fetchList n
    ((v, e) :: rs, p2)

/-- `Pipe.Read` (pipe.go lines 87–130), the blocking receive, for
executions with no concurrent writer: `ctxDone`/`ctxErr` model the context
state when `Read` runs, `ncId` the identity of the fresh channel
`NewNotifyCh` would allocate.  The net effect of the blocked-reader count
increment and its deferred decrement is zero on return and is omitted.
After a `Fetch` reporting `ErrNoData`, the code registers a fresh fetched
`NotifyCh` in the registry with the send `q.ch <- ch`; when the capacity-16
registry buffer is already full that send itself blocks (with no concurrent
popper, forever), modelled as `none`.  Once registered, the code selects
over the notification, the context and the write-close broadcast; with no
concurrent writer the notification branch never fires, so the call returns
only through the context branch (cancelling the registered channel) and
blocks otherwise, modelled as `none` (the write-close broadcast branch,
only reachable here in states an open pipe never exhibits, re-loops
without data and blocks likewise). -/
def Pipe.Read {T : Type} [Inhabited T] (p : Pipe T)
    (ctxDone : Bool) (ctxErr : Option Err) (ncId : Nat) :
    Option (T × Option Err × Pipe T) :=
  if p.readClosed then some (default, some Err.EOF, p)
  else
    match p.Fetch with
    | (v, none, p1) => some (v, none, p1)
    | (v, some Err.EOF, p1) => some (v, some Err.EOF, p1)
    | (_, some _, p1) =>
      let nc := NewNotifyCh () ncId
      let (_, nc1) := nc.FetchChannel
      if p1.ch.length < pipeChCapacity then
        if ctxDone then
          let nc2 := (nc1.Cancel).2
          some (default, some (ctxError ctxErr), { p1 with ch := p1.ch ++ [nc2] })
        else none
      else none

/-- `Pipe.Close` (pipe.go lines 134–149): return false if already
write-closed; otherwise set `writeClosed`, close the broadcast channel,
and run the kill loop, which pops and cancels registered waiters for as
long as blocked readers remain.  Sequentially the loop body never runs
when `blockingReadCount = 0`; while blocked readers remain it cancels and
discards registered waiters until the readers have gone, modelled as
draining the registry. -/
def Pipe.Close {T : Type} (p : Pipe T) : Bool × Pipe T :=
  if p.writeClosed then (false, p)
  else
    (true, { p with writeClosed := true, writeChClosed := true,
                    ch := if p.blockingReadCount > 0 then [] else p.ch })

/-- Sequential denotation of `BytePipe` (`src/bytepipe.go`): a `Pipe` of
byte blocks (a Go `[]byte` is a `List Nat`) with the `ReadFromSize`
configuration and the retained partial block `activeBuf`. -/
structure BytePipe where
  pipe : Pipe (List Nat)
  ReadFromSize : Int
  activeBuf : List Nat
deriving Repr

/-- `BytePipe.Write` (bytepipe.go lines 106–118): an empty input returns
`(0, nil)` immediately; otherwise the data is copied into a fresh block,
`Append` is called, and on success the full length is reported. -/
def BytePipe.Write (bp : BytePipe) (p : List Nat) : Int × Option Err × BytePipe :=
  if p.length = 0 then (0, none, bp)
  else
    let data := p
    let (_, err, pipe1) := bp.pipe.Append data
    match err with
    | none => ((p.length : Int), none, { bp with pipe := pipe1 })
    | some e => (0, some e, { bp with pipe := pipe1 })

/-- Enqueueing appends to the item list. -/
theorem Queue.enqueueList_items {T : Type} (vs : List T) :
    ∀ q : Queue T, (q.enqueueList vs).items = q.items ++ vs := by
  induction vs with
  | nil => intro q; simp [Queue.enqueueList]
  | cons v vs ih =>
    intro q
    simp [Queue.enqueueList, Queue.Enqueue, ih]

/-- Draining a queue of `n` items by `n` dequeues returns the items in
order and empties the queue. -/
theorem Queue.dequeueList_drain {T : Type} (vs : List T) :
    ∀ q : Queue T, q.items = vs →
      q.dequeueList vs.length = (vs.map some, ⟨[], q.size - vs.length⟩) := by
  induction vs with
  | nil =>
    intro q h
    obtain ⟨items, size⟩ := q
    simp only at h
    subst h
    simp [Queue.dequeueList]
  | cons v vs ih =>
    intro q h
    obtain ⟨items, size⟩ := q
    simp only at h
    subst h
    have step : Queue.Dequeue ⟨v :: vs, size⟩ = (some v, ⟨vs, size - 1⟩) := rfl
    simp only [Queue.dequeueList, step, ih ⟨vs, size - 1⟩ rfl, List.length_cons, List.map_cons]
    simp only [Prod.mk.injEq, Queue.mk.injEq]
    refine ⟨trivial, trivial, ?_⟩
    push_cast
    ring

/-- C2.  Queue FIFO round-trip: enqueuing the values `vs` in order into a
fresh queue and then dequeuing `vs.length` times returns exactly `vs`,
each with `found = true` (`some`), in FIFO order; on the emptied queue a
further `Dequeue` reports `found = false` (`none`) and leaves the queue
unchanged. -/
theorem queue_fifo_roundtrip {T : Type} (vs : List T) :
    (((NewQueue (T := T)).enqueueList vs).dequeueList vs.length).1 = vs.map some ∧
    ((((NewQueue (T := T)).enqueueList vs).dequeueList vs.length).2).Dequeue
      = (none, (((NewQueue (T := T)).enqueueList vs).dequeueList vs.length).2) := by
  have hitems : ((NewQueue (T := T)).enqueueList vs).items = vs := by
    simpa [NewQueue] using Queue.enqueueList_items vs (NewQueue (T := T))
  have hdrain := Queue.dequeueList_drain vs ((NewQueue (T := T)).enqueueList vs) hitems
  refine ⟨by simp [hdrain], ?_⟩
  simp only [hdrain]
  rfl

/-- C10.  `BytePipe.Write` with an empty input is a no-op: it returns
`(0, nil)` without calling `Append`, so the whole `BytePipe` state (open
or closed) is unchanged. -/
theorem bytepipe_write_empty (bp : BytePipe) (p : List Nat) (h : p.length = 0) :
    bp.Write p = (0, none, bp) := by
  simp [BytePipe.Write, h]

/-- C10 witness: an empty `Write` on an already write-closed `BytePipe`
still succeeds with `(0, nil)` and leaves the state unchanged. -/
theorem bytepipe_write_empty_witness :
    (List.length ([] : List Nat) = 0) ∧
    BytePipe.Write ⟨⟨⟨[], 0⟩, false, true, true, [], 0⟩, 16, []⟩ []
      = (0, none, ⟨⟨⟨[], 0⟩, false, true, true, [], 0⟩, 16, []⟩) :=
  ⟨rfl, bytepipe_write_empty ⟨⟨⟨[], 0⟩, false, true, true, [], 0⟩, 16, []⟩ [] rfl⟩

/-- C8.  On an empty queue with the pipe not yet read-closed, `Fetch`
returns the `ErrNoData` error and leaves the pipe unchanged while the pipe
is still open for writing, and returns `io.EOF` — flipping the pipe into
the terminal read-closed (Drained) state — exactly when the pipe is
write-closed; the two error values are distinct. -/
theorem fetch_empty_classification {T : Type} [Inhabited T] (p : Pipe T)
    (hq : p.queue.items = []) (hr : p.readClosed = false) :
    (p.writeClosed = false → p.Fetch = (default, some Err.ErrNoData, p)) ∧
    (p.writeClosed = true →
      p.Fetch = (default, some Err.EOF, { p with readClosed := true })) ∧
    Err.ErrNoData ≠ Err.EOF := by
  obtain ⟨⟨items, size⟩, rc, wc, wcc, ch, brc⟩ := p
  simp only at hq hr
  subst hq
  subst hr
  refine ⟨?_, ?_, by decide⟩
  · intro hw
    simp only at hw
    subst hw
    rfl
  · intro hw
    simp only at hw
    subst hw
    rfl

/-- C8 witness: a concrete empty open pipe yields `ErrNoData`, and the
same pipe write-closed yields `io.EOF` with `readClosed` flipped. -/
theorem fetch_empty_classification_witness :
    Pipe.Fetch (⟨⟨[], 0⟩, false, false, false, [], 0⟩ : Pipe Int)
        = (0, some Err.ErrNoData, ⟨⟨[], 0⟩, false, false, false, [], 0⟩) ∧
    Pipe.Fetch (⟨⟨[], 0⟩, false, true, true, [], 0⟩ : Pipe Int)
        = (0, some Err.EOF, ⟨⟨[], 0⟩, true, true, true, [], 0⟩) := by
  constructor
  · exact (fetch_empty_classification (⟨⟨[], 0⟩, false, false, false, [], 0⟩ : Pipe Int)
      rfl rfl).1 rfl
  · exact (fetch_empty_classification (⟨⟨[], 0⟩, false, true, true, [], 0⟩ : Pipe Int)
      rfl rfl).2.1 rfl

/-- C9.  Idempotent `Close`: on a pipe not yet write-closed, the first
`Close()` returns true and performs the write-close broadcast (the
broadcast channel becomes closed); the second `Close()` returns false and
changes nothing — in particular it does not reach the broadcast `close`
again (which in Go would both double-broadcast and panic). -/
theorem close_idempotent {T : Type} (p : Pipe T) (hw : p.writeClosed = false) :
    (p.Close).1 = true ∧
    ((p.Close).2).writeChClosed = true ∧
    ((p.Close).2).Close = (false, (p.Close).2) := by
  simp [Pipe.Close, hw]

/-- C9 witness: closing a concrete fresh pipe succeeds, broadcasts, and a
second close fails without further change. -/
theorem close_idempotent_witness :
    ((Pipe.Close (⟨⟨[], 0⟩, false, false, false, [], 0⟩ : Pipe Int)).1 = true) ∧
    ((Pipe.Close (⟨⟨[], 0⟩, false, false, false, [], 0⟩ : Pipe Int)).2).writeChClosed = true ∧
    ((Pipe.Close (⟨⟨[], 0⟩, false, false, false, [], 0⟩ : Pipe Int)).2).Close
      = (false, (Pipe.Close (⟨⟨[], 0⟩, false, false, false, [], 0⟩ : Pipe Int)).2) :=
  close_idempotent (⟨⟨[], 0⟩, false, false, false, [], 0⟩ : Pipe Int) rfl

/-- Draining a pipe whose queue holds `vs` by `vs.length` fetches (with
read side not closed) returns the values in order, each with nil error,
and empties the queue without touching the close flags. -/
theorem Pipe.fetchList_drain {T : Type} [Inhabited T] (vs : List T) :
    ∀ p : Pipe T, p.readClosed = false → p.queue.items = vs →
      p.fetchList vs.length
        = (vs.map (fun v => (v, (none : Option Err))),
           { p with queue := ⟨[], p.queue.size - vs.length⟩ }) := by
  induction vs with
  | nil =>
    intro p hr hq
    obtain ⟨⟨items, size⟩, rc, wc, wcc, ch, brc⟩ := p
    simp only at hr hq
    subst hr
    subst hq
    simp [Pipe.fetchList]
  | cons v vs ih =>
    intro p hr hq
    obtain ⟨⟨items, size⟩, rc, wc, wcc, ch, brc⟩ := p
    simp only at hr hq
    subst hr
    subst hq
    have step : Pipe.Fetch (⟨⟨v :: vs, size⟩, false, wc, wcc, ch, brc⟩ : Pipe T)
        = (v, none, ⟨⟨vs, size - 1⟩, false, wc, wcc, ch, brc⟩) := rfl
    have tail := ih (⟨⟨vs, size - 1⟩, false, wc, wcc, ch, brc⟩ : Pipe T) rfl rfl
    simp only [Pipe.fetchList, step, tail, List.length_cons, List.map_cons]
    simp only [Prod.mk.injEq, Pipe.mk.injEq, Queue.mk.injEq]
    refine ⟨trivial, ⟨⟨trivial, ?_⟩, trivial, trivial, trivial, trivial, trivial⟩⟩
    push_cast
    ring

/-- Once the read side is closed, every `Fetch` returns the zero value
with `io.EOF` and changes nothing, for any number of calls. -/
theorem Pipe.fetchList_eof {T : Type} [Inhabited T] (k : Nat) :
    ∀ p : Pipe T, p.readClosed = true →
      p.fetchList k = (List.replicate k ((default : T), some Err.EOF), p) := by
  induction k with
  | zero => intro p hr; rfl
  | succ k ih =>
    intro p hr
    have step : p.Fetch = (default, some Err.EOF, p) := by
      simp [Pipe.Fetch, hr]
    simp [Pipe.fetchList, step, ih p hr, List.replicate_succ]

/-- On an empty queue with the write side closed and the read side not yet
closed, every sequence of `k` fetches returns `io.EOF` every time. -/
theorem Pipe.fetchList_empty_closed {T : Type} [Inhabited T] (k : Nat)
    (p : Pipe T) (hr : p.readClosed = false) (hw : p.writeClosed = true)
    (hq : p.queue.items = []) :
    (p.fetchList k).1 = List.replicate k ((default : T), some Err.EOF) := by
  cases k with
  | zero => rfl
  | succ k =>
    obtain ⟨⟨items, size⟩, rc, wc, wcc, ch, brc⟩ := p
    simp only at hr hw hq
    subst hr
    subst hw
    subst hq
    have step : Pipe.Fetch (⟨⟨[], size⟩, false, true, wcc, ch, brc⟩ : Pipe T)
        = (default, some Err.EOF, ⟨⟨[], size⟩, true, true, wcc, ch, brc⟩) := rfl
    simp [Pipe.fetchList, step, List.replicate_succ,
      Pipe.fetchList_eof k (⟨⟨[], size⟩, true, true, wcc, ch, brc⟩ : Pipe T) rfl]

/-- Once the pipe is write-closed, the blocking `Read` (Receive) never
parks: it returns exactly what `Fetch` returns, so it drains the remaining
queued values and then reports `io.EOF`, for any context state. -/
theorem Pipe.read_eq_fetch_after_close {T : Type} [Inhabited T] (q : Pipe T)
    (hw : q.writeClosed = true) (ctxDone : Bool) (ctxErr : Option Err) (ncId : Nat) :
    q.Read ctxDone ctxErr ncId = some q.Fetch := by
  obtain ⟨⟨items, size⟩, rc, wc, wcc, ch, brc⟩ := q
  simp only at hw
  subst hw
  cases rc
  · cases items <;> rfl
  · rfl

/-- C1.  Close semantics of the pipe: starting from a pipe that is open on
both sides, after `Close()` every `Append(v)` fails with `io.ErrClosedPipe`
and leaves the entire pipe state (in particular the queue) unchanged;
`Fetch` still returns every value that was queued before the close, in
order and with nil error, until the queue is exhausted, and from then on
every further `Fetch`, for any number of calls, returns `io.EOF`; and on
every write-closed pipe the blocking `Read` (Receive) returns exactly what
`Fetch` returns, so Receive drains and then reports `io.EOF` likewise. -/
theorem pipe_close_semantics {T : Type} [Inhabited T] (p : Pipe T)
    (hw : p.writeClosed = false) (hr : p.readClosed = false) :
    (∀ v, ((p.Close).2).Append v = (0, some Err.ErrClosedPipe, (p.Close).2)) ∧
    (((p.Close).2).fetchList p.queue.items.length).1
        = p.queue.items.map (fun v => (v, (none : Option Err))) ∧
    (∀ k, (((((p.Close).2).fetchList p.queue.items.length).2).fetchList k).1
        = List.replicate k ((default : T), some Err.EOF)) ∧
    (∀ (q : Pipe T) ctxDone ctxErr ncId, q.writeClosed = true →
        q.Read ctxDone ctxErr ncId = some q.Fetch) := by
  obtain ⟨⟨items, size⟩, rc, wc, wcc, ch, brc⟩ := p
  simp only at hw hr
  subst hw
  subst hr
  have hclose : Pipe.Close (⟨⟨items, size⟩, false, false, wcc, ch, brc⟩ : Pipe T)
      = (true, ⟨⟨items, size⟩, false, true, true,
                if brc > 0 then [] else ch, brc⟩) := rfl
  set ch1 := if brc > 0 then ([] : List (NotifyCh Unit)) else ch with hch1
  have hdrain := Pipe.fetchList_drain items
      (⟨⟨items, size⟩, false, true, true, ch1, brc⟩ : Pipe T) rfl rfl
  refine ⟨?_, ?_, ?_, ?_⟩
  · intro v
    simp [hclose, Pipe.Append]
  · simp [hclose, hdrain]
  · intro k
    simp only [hclose, hdrain]
    exact Pipe.fetchList_empty_closed k
      (⟨⟨[], size - items.length⟩, false, true, true, ch1, brc⟩ : Pipe T) rfl rfl rfl
  · intro q ctxDone ctxErr ncId hqw
    exact Pipe.read_eq_fetch_after_close q hqw ctxDone ctxErr ncId

/-- C1 witness: a concrete open pipe holding `[4, 5]`, closed, rejects an
append, drains `4` then `5`, and afterwards fetches return `io.EOF`. -/
theorem pipe_close_semantics_witness :
    ((Pipe.Close (⟨⟨[4, 5], 2⟩, false, false, false, [], 0⟩ : Pipe Int)).2).Append 7
        = (0, some Err.ErrClosedPipe,
           (Pipe.Close (⟨⟨[4, 5], 2⟩, false, false, false, [], 0⟩ : Pipe Int)).2) ∧
    (((Pipe.Close (⟨⟨[4, 5], 2⟩, false, false, false, [], 0⟩ : Pipe Int)).2).fetchList 2).1
        = [(4, none), (5, none)] ∧
    ((((Pipe.Close (⟨⟨[4, 5], 2⟩, false, false, false, [], 0⟩ : Pipe Int)).2).fetchList 2).2.fetchList 3).1
        = [(0, some Err.EOF), (0, some Err.EOF), (0, some Err.EOF)] ∧
    Pipe.Read (⟨⟨[], 0⟩, true, true, true, [], 0⟩ : Pipe Int) false none 0
        = some (Pipe.Fetch (⟨⟨[], 0⟩, true, true, true, [], 0⟩ : Pipe Int)) := by
  have h := pipe_close_semantics (⟨⟨[4, 5], 2⟩, false, false, false, [], 0⟩ : Pipe Int) rfl rfl
  exact ⟨h.1 7, h.2.1, h.2.2.1 3,
    h.2.2.2 (⟨⟨[], 0⟩, true, true, true, [], 0⟩ : Pipe Int) false none 0 rfl⟩

/-- The waking loop notifies at most one channel. -/
theorem wakeLoop_le_one : ∀ l : List (NotifyCh Unit), (wakeLoop l).2 ≤ 1 := by
  intro l
  induction l with
  | nil => simp [wakeLoop]
  | cons nc rest ih =>
    by_cases hnc : (nc.Notify ()).1
    · simp [wakeLoop, hnc]
    · simpa [wakeLoop, hnc] using ih

/-- If every registered channel refuses its notification, the waking loop
drains the whole registry and notifies nobody. -/
theorem wakeLoop_all_fail : ∀ l : List (NotifyCh Unit),
    (∀ x ∈ l, (x.Notify ()).1 = false) → wakeLoop l = ([], 0) := by
  intro l
  induction l with
  | nil => intro _; rfl
  | cons nc rest ih =>
    intro hall
    have hnc : (nc.Notify ()).1 = false := hall nc (by simp)
    have hrest : ∀ x ∈ rest, (x.Notify ()).1 = false := fun x hx => hall x (by simp [hx])
    simp [wakeLoop, hnc, ih hrest]

/-- If the registry is a prefix of refusing channels followed by one that
accepts, the waking loop discards the refusing prefix, notifies exactly
that one, stops there, and leaves the rest of the registry untouched. -/
theorem wakeLoop_first_success : ∀ (pre : List (NotifyCh Unit)) (nc : NotifyCh Unit)
    (rest : List (NotifyCh Unit)),
    (∀ x ∈ pre, (x.Notify ()).1 = false) → (nc.Notify ()).1 = true →
    wakeLoop (pre ++ nc :: rest) = (rest, 1) := by
  intro pre
  induction pre with
  | nil =>
    intro nc rest _ hnc
    simp [wakeLoop, hnc]
  | cons x pre ih =>
    intro nc rest hall hnc
    have hx : (x.Notify ()).1 = false := hall x (by simp)
    have hpre : ∀ y ∈ pre, (y.Notify ()).1 = false := fun y hy => hall y (by simp [hy])
    simp [wakeLoop, hx, ih nc rest hpre hnc]

/-- C4.  On an open pipe, a single `Append(v)` enqueues `v` (the entry
count grows by one and the reported count is the incremented size) and
then runs the waking loop over the registry, which notifies at most one
`NotifyCh`: it pops registered channels one at a time, discards each
popped channel whose `Notify` fails, stops as soon as one `Notify`
succeeds (leaving the channels behind it untouched in the registry) or
the registry is empty, so no second live waiter is notified. -/
theorem append_wakes_at_most_one {T : Type} (p : Pipe T) (v : T)
    (hw : p.writeClosed = false) :
    (p.Append v = (p.queue.size + 1, none,
        { p with queue := ⟨p.queue.items ++ [v], p.queue.size + 1⟩,
                 ch := (wakeLoop p.ch).1 })) ∧
    (wakeLoop p.ch).2 ≤ 1 ∧
    (∀ pre nc rest, p.ch = pre ++ nc :: rest →
        (∀ x ∈ pre, (x.Notify ()).1 = false) → (nc.Notify ()).1 = true →
        wakeLoop p.ch = (rest, 1)) ∧
    ((∀ x ∈ p.ch, (x.Notify ()).1 = false) → wakeLoop p.ch = ([], 0)) := by
  refine ⟨?_, wakeLoop_le_one p.ch, ?_, wakeLoop_all_fail p.ch⟩
  · obtain ⟨⟨items, size⟩, rc, wc, wcc, ch, brc⟩ := p
    simp only at hw
    subst hw
    rfl
  · intro pre nc rest hsplit hall hnc
    rw [hsplit]
    exact wakeLoop_first_success pre nc rest hall hnc

/-- C4 witness: appending to a concrete open pipe whose registry holds a
cancelled waiter, a live waiter and a second live waiter notifies exactly
the first live waiter, discards the cancelled one, and leaves the second
live waiter registered. -/
theorem append_wakes_at_most_one_witness :
    Pipe.Append (⟨⟨[], 0⟩, false, false, false,
        [⟨(), true, 0, true, 0, 1⟩, NewNotifyCh () 1, NewNotifyCh () 2], 0⟩ : Pipe Int) 9
      = (1, none, ⟨⟨[9], 1⟩, false, false, false, [NewNotifyCh () 2], 0⟩) ∧
    wakeLoop [⟨(), true, 0, true, 0, 1⟩, NewNotifyCh () 1, NewNotifyCh () 2]
      = ([NewNotifyCh () 2], 1) := by
  have h := append_wakes_at_most_one
    (⟨⟨[], 0⟩, false, false, false,
        [⟨(), true, 0, true, 0, 1⟩, NewNotifyCh () 1, NewNotifyCh () 2], 0⟩ : Pipe Int) 9 rfl
  have hwake := h.2.2.1 [⟨(), true, 0, true, 0, 1⟩] (NewNotifyCh () 1) [NewNotifyCh () 2]
    rfl (by intro x hx; simp only [List.mem_singleton] at hx; subst hx; rfl) rfl
  refine ⟨?_, hwake⟩
  rw [h.1, hwake]
  rfl

/-- One of the three send-side operations of `NotifyCh`. -/
inductive SendOp (T : Type) where
  | notify : T → SendOp T
  | cancel : SendOp T
  | cancelWithValue : T → SendOp T

/-- Apply one send-side operation (dispatch to the source method). -/
def NotifyCh.applySendOp {T : Type} (c : NotifyCh T) : SendOp T → Bool × NotifyCh T
  | SendOp.notify v => c.Notify v
  | SendOp.cancel => c.Cancel
  | SendOp.cancelWithValue v => c.CancelWithValue v

/-- Apply a sequence of send-side operations in order, collecting each
call's boolean result and the final channel state. -/
def NotifyCh.runSendOps {T : Type} (c : NotifyCh T) : List (SendOp T) → List Bool × NotifyCh T
  | [] => ([], c)
  | op :: ops =>
    let (b, c1) := c.applySendOp op
    let (bs, c2) := c1.runSendOps ops
    (b :: bs, c2)

/-- The channel state a successful send-side operation leaves behind. -/
def NotifyCh.sendResult {T : Type} (c : NotifyCh T) : SendOp T → NotifyCh T
  | SendOp.notify v => { c with Value := v, chClosed := true, flagSend := 1 }
  | SendOp.cancel => { c with Cancelled := true, chClosed := true, flagSend := 1 }
  | SendOp.cancelWithValue v =>
    { c with Value := v, Cancelled := true, chClosed := true, flagSend := 1 }

/-- The `(value, error)` pair `Wait` reports after the given send-side
operation succeeded on a fresh channel whose zero value is `zero`. -/
def NotifyCh.sendOutcome {T : Type} (zero : T) : SendOp T → T × Option Err
  | SendOp.notify v => (v, none)
  | SendOp.cancel => (zero, some Err.ErrClosedPipe)
  | SendOp.cancelWithValue v => (v, some Err.ErrClosedPipe)

/-- Once the send lease is consumed, every send-side operation returns
false and changes nothing. -/
theorem NotifyCh.applySendOp_consumed {T : Type} (c : NotifyCh T) (op : SendOp T)
    (h : c.flagSend ≠ 0) : c.applySendOp op = (false, c) := by
  cases op <;>
    simp [NotifyCh.applySendOp, NotifyCh.Notify, NotifyCh.Cancel,
      NotifyCh.CancelWithValue, NotifyCh.fetchSendChannel, h]

/-- Once the send lease is consumed, a whole sequence of send-side
operations returns all-false and changes nothing. -/
theorem NotifyCh.runSendOps_consumed {T : Type} (ops : List (SendOp T)) :
    ∀ c : NotifyCh T, c.flagSend ≠ 0 →
      c.runSendOps ops = (List.replicate ops.length false, c) := by
  induction ops with
  | nil => intro c _; rfl
  | cons op ops ih =>
    intro c h
    simp [NotifyCh.runSendOps, NotifyCh.applySendOp_consumed c op h, ih c h,
      List.replicate_succ]

/-- With the send lease still free, any send-side operation succeeds and
produces `sendResult`. -/
theorem NotifyCh.applySendOp_fresh {T : Type} (c : NotifyCh T) (op : SendOp T)
    (h : c.flagSend = 0) : c.applySendOp op = (true, c.sendResult op) := by
  cases op <;>
    simp [NotifyCh.applySendOp, NotifyCh.Notify, NotifyCh.Cancel,
      NotifyCh.CancelWithValue, NotifyCh.fetchSendChannel, NotifyCh.sendResult, h]

/-- A replicated-false list never yields true. -/
theorem getD_replicate_false : ∀ n k : Nat, (List.replicate n false).getD k false = false := by
  intro n
  induction n with
  | zero => intro k; cases k <;> rfl
  | succ n ih =>
    intro k
    cases k with
    | zero => rfl
    | succ k =>
      rw [List.replicate_succ, List.getD_cons_succ]
      exact ih k

/-- C3.  One-shot send exclusivity of `NotifyCh`: running any sequence of
`Notify`/`Cancel`/`CancelWithValue` calls on a fresh instance, at most one
call returns true; after a successful call every later call returns
false; and when the `i`-th call is the one that succeeded, a subsequent
`Wait` (receive lease free, context not expired) observes exactly that
call's outcome — its value with nil error for `Notify`, the closed-pipe
error for `Cancel`/`CancelWithValue`. -/
theorem notifych_send_exclusive {T : Type} [Inhabited T] (zero : T) (id : Nat)
    (ops : List (SendOp T)) :
    (((NewNotifyCh zero id).runSendOps ops).1.count true ≤ 1) ∧
    (∀ i j, i < j → ((NewNotifyCh zero id).runSendOps ops).1.getD i false = true →
        ((NewNotifyCh zero id).runSendOps ops).1.getD j false = false) ∧
    (∀ i, ((NewNotifyCh zero id).runSendOps ops).1.getD i false = true →
        ((((NewNotifyCh zero id).runSendOps ops).2).Wait false none).map
            (fun r => (r.1, r.2.1))
          = some (NotifyCh.sendOutcome zero (ops.getD i SendOp.cancel))) := by
  cases ops with
  | nil =>
    refine ⟨by simp [NotifyCh.runSendOps], ?_, ?_⟩
    · intro i j _ hi
      simp [NotifyCh.runSendOps, List.getD] at hi
    · intro i hi
      simp [NotifyCh.runSendOps, List.getD] at hi
  | cons op rest =>
    have h1 : (NewNotifyCh zero id).applySendOp op
        = (true, (NewNotifyCh zero id).sendResult op) :=
      NotifyCh.applySendOp_fresh _ _ rfl
    have h2 : ((NewNotifyCh zero id).sendResult op).flagSend = 1 := by
      cases op <;> rfl
    have h3 := NotifyCh.runSendOps_consumed rest ((NewNotifyCh zero id).sendResult op)
      (by rw [h2]; decide)
    have hrs : (NewNotifyCh zero id).runSendOps (op :: rest)
        = (true :: List.replicate rest.length false,
           (NewNotifyCh zero id).sendResult op) := by
      simp [NotifyCh.runSendOps, h1, h3]
    refine ⟨?_, ?_, ?_⟩
    · simp [hrs, List.count_cons, List.count_replicate]
    · intro i j hij hi
      rw [hrs]
      obtain ⟨j1, rfl⟩ : ∃ j1, j = j1 + 1 := ⟨j - 1, by omega⟩
      rw [List.getD_cons_succ]
      exact getD_replicate_false rest.length j1
    · intro i hi
      rw [hrs] at hi
      cases i with
      | succ i1 =>
        rw [List.getD_cons_succ, getD_replicate_false] at hi
        exact absurd hi (by decide)
      | zero =>
        rw [hrs]
        cases op <;> rfl

/-- C3 witness: on a fresh channel, running `Notify 5` then `Cancel`, the
first call succeeds, at most one call succeeds overall, and `Wait`
observes `(5, nil)` — the outcome of the successful `Notify`. -/
theorem notifych_send_exclusive_witness :
    (((NewNotifyCh (0 : Int) 1).runSendOps [SendOp.notify 5, SendOp.cancel]).1.count true ≤ 1) ∧
    ((((NewNotifyCh (0 : Int) 1).runSendOps [SendOp.notify 5, SendOp.cancel]).2).Wait
        false none).map (fun r => (r.1, r.2.1)) = some (5, none) := by
  have h := notifych_send_exclusive (0 : Int) 1 [SendOp.notify 5, SendOp.cancel]
  exact ⟨h.1, h.2.2 0 rfl⟩

/-- C5 counterexample.  In the pipe-package variant of `NotifyCh`
(`src/unnamed/part_000`), after the channel is closed by a successful
`Cancel()`, a `Wait` on the (available) receive lease returns a nil
error — not `io.ErrClosedPipe` — contradicting the claim that a
Cancel-closed channel never yields a nil error from `Wait`. -/
theorem wait_after_cancel_nil_error_pipe_pkg :
    (((NewNotifyCh (0 : Int) 0).Cancel).1 = true) ∧
    ((((NewNotifyCh (0 : Int) 0).Cancel).2).WaitPipePkg false none).map (fun r => r.2.1)
      = some none ∧
    ((((NewNotifyCh (0 : Int) 0).Cancel).2).WaitPipePkg false none).map (fun r => r.2.1)
      ≠ some (some Err.ErrClosedPipe) :=
  ⟨rfl, rfl, by decide⟩

/-- C5 (amended).  For the bufpipe implementation (`src/notifych.go`): on
a `NotifyCh` whose receive lease is available and whose send lease is
still free (not yet cancelled), if the channel is closed by `Notify(v)`
then `Wait` returns value `v` with a nil error, and if it is closed by
`Cancel()` or `CancelWithValue(v)` then `Wait` returns the closed-pipe
error `io.ErrClosedPipe`, never a nil error. -/
theorem wait_outcome_classification {T : Type} [Inhabited T] (c : NotifyCh T) (v : T)
    (hr : c.flagReceive = 0) (hs : c.flagSend = 0) (hc : c.Cancelled = false) :
    ((c.Notify v).1 = true ∧
      (((c.Notify v).2).Wait false none).map (fun r => (r.1, r.2.1)) = some (v, none)) ∧
    ((c.Cancel).1 = true ∧
      (((c.Cancel).2).Wait false none).map (fun r => r.2.1)
        = some (some Err.ErrClosedPipe)) ∧
    ((c.CancelWithValue v).1 = true ∧
      (((c.CancelWithValue v).2).Wait false none).map (fun r => (r.1, r.2.1))
        = some (v, some Err.ErrClosedPipe)) := by
  obtain ⟨value, cancelled, chId, chClosed, fr, fs⟩ := c
  simp only at hr hs hc
  subst hr
  subst hs
  subst hc
  exact ⟨⟨rfl, rfl⟩, ⟨rfl, rfl⟩, ⟨rfl, rfl⟩⟩

/-- C5 witness: on a concrete fresh channel, `Notify 5` then `Wait` gives
`(5, nil)`, and `Cancel` then `Wait` gives the closed-pipe error. -/
theorem wait_outcome_classification_witness :
    (((NewNotifyCh (0 : Int) 4).Notify 5).1 = true ∧
      ((((NewNotifyCh (0 : Int) 4).Notify 5).2).Wait false none).map
          (fun r => (r.1, r.2.1)) = some (5, none)) ∧
    (((NewNotifyCh (0 : Int) 4).Cancel).1 = true ∧
      ((((NewNotifyCh (0 : Int) 4).Cancel).2).Wait false none).map (fun r => r.2.1)
        = some (some Err.ErrClosedPipe)) :=
  ⟨(wait_outcome_classification (NewNotifyCh (0 : Int) 4) 5 rfl rfl rfl).1,
   (wait_outcome_classification (NewNotifyCh (0 : Int) 4) 5 rfl rfl rfl).2.1⟩

/-- C6 counterexample.  `UnfetchChannel` with the matching handle succeeds
on a channel that has already been closed by `Notify`: after
`FetchChannel` (lease held) and a successful `Notify 9` (channel closed),
`UnfetchChannel` returns true — contradicting the claim that it returns
false if the channel has already been closed. -/
theorem unfetch_after_close_returns_true :
    ((((NewNotifyCh (0 : Int) 3).FetchChannel).2.Notify 9).1 = true) ∧
    (((((NewNotifyCh (0 : Int) 3).FetchChannel).2.Notify 9).2).chClosed = true) ∧
    ((((((NewNotifyCh (0 : Int) 3).FetchChannel).2.Notify 9).2).UnfetchChannel 3).1 = true) :=
  ⟨rfl, rfl, rfl⟩

/-- C6 (amended).  `UnfetchChannel(handle)` succeeds, restoring the
receive lease to idle, exactly when the handle matches the channel and the
receive lease is currently held; it returns false, changing nothing, when
the handle does not match or the lease is not held.  Whether the channel
has already been closed by `Notify`/`Cancel`/`CancelWithValue` is not
checked and does not affect the result. -/
theorem unfetchChannel_lease_spec {T : Type} (c : NotifyCh T) (hdl : Nat) :
    c.UnfetchChannel hdl =
      if hdl = c.chId ∧ c.flagReceive = 1 then (true, { c with flagReceive := 0 })
      else (false, c) := by
  by_cases h1 : hdl = c.chId
  · by_cases h2 : c.flagReceive = 1
    · simp [NotifyCh.UnfetchChannel, h1, h2]
    · simp [NotifyCh.UnfetchChannel, h1, h2]
  · simp [NotifyCh.UnfetchChannel, h1]

/-- C7.  Starting a blocking `Read` (Receive) on an open pipe with an
empty queue, room in the capacity-16 waiter registry (so the registration
send does not block), and an already-expired cancellation context returns
the context's cancellation error — which is neither `ErrNoData` nor
`io.EOF` — and the `NotifyCh` the call registered in the pipe's registry
has been cancelled before the call returns: it is marked `Cancelled` and
is no longer notifiable (a later `Notify` on it fails). -/
theorem receive_expired_ctx {T : Type} [Inhabited T] (p : Pipe T) (ctxErr : Option Err)
    (ncId : Nat) (hr : p.readClosed = false) (hw : p.writeClosed = false)
    (hwc : p.writeChClosed = false) (hq : p.queue.items = [])
    (hcap : p.ch.length < pipeChCapacity)
    (hctx : ctxErr = none ∨ ctxErr = some Err.Canceled
        ∨ ctxErr = some Err.DeadlineExceeded) :
    p.Read true ctxErr ncId
      = some (default, some (ctxError ctxErr),
          { p with ch := p.ch ++ [⟨(), true, ncId, true, 1, 1⟩] }) ∧
    (ctxError ctxErr ≠ Err.ErrNoData ∧ ctxError ctxErr ≠ Err.EOF) ∧
    ((⟨(), true, ncId, true, 1, 1⟩ : NotifyCh Unit).Cancelled = true ∧
      ((⟨(), true, ncId, true, 1, 1⟩ : NotifyCh Unit).Notify ()).1 = false) := by
  obtain ⟨⟨items, size⟩, rc, wc, wcc, ch, brc⟩ := p
  simp only at hr hw hwc hq hcap
  subst hr
  subst hw
  subst hwc
  subst hq
  refine ⟨?_, ?_, rfl, rfl⟩
  · have hstep : Pipe.Read (⟨⟨[], size⟩, false, false, false, ch, brc⟩ : Pipe T)
        true ctxErr ncId
        = if ch.length < pipeChCapacity then
            some (default, some (ctxError ctxErr),
              ⟨⟨[], size⟩, false, false, false, ch ++ [⟨(), true, ncId, true, 1, 1⟩], brc⟩)
          else none := rfl
    rw [hstep, if_pos hcap]
  · rcases hctx with h | h | h <;> subst h <;> exact ⟨by decide, by decide⟩

/-- C7 witness: on a concrete empty open pipe with an expired
deadline-based context, `Read` returns `DeadlineExceeded` and the pipe's
registry holds exactly the cancelled, no-longer-notifiable channel. -/
theorem receive_expired_ctx_witness :
    Pipe.Read (⟨⟨[], 0⟩, false, false, false, [], 0⟩ : Pipe Int)
        true (some Err.DeadlineExceeded) 7
      = some (0, some Err.DeadlineExceeded,
          ⟨⟨[], 0⟩, false, false, false, [⟨(), true, 7, true, 1, 1⟩], 0⟩) ∧
    Err.DeadlineExceeded ≠ Err.ErrNoData ∧
    ((⟨(), true, 7, true, 1, 1⟩ : NotifyCh Unit).Notify ()).1 = false := by
  have h := receive_expired_ctx (⟨⟨[], 0⟩, false, false, false, [], 0⟩ : Pipe Int)
    (some Err.DeadlineExceeded) 7 rfl rfl rfl rfl (by decide) (Or.inr (Or.inr rfl))
  exact ⟨h.1, h.2.1.1, h.2.2.2⟩
